import Mathlib

/-!
Verification development for `ci/process_notebooks.py`, a batch tool that
executes Jupyter notebooks, strips instructor "solution" cells, and writes
derived artifacts.  The Python program is shallowly embedded: notebooks are
lists of cell records, the file system and the notebook executor are oracles
passed to `main`, machine side effects (writes, exit status) are reified as
data, and fallible dictionary accesses (`cell["outputs"]`, `del cell[...]`)
return `Except PyErr`.
-/

/-! ## Character and string utilities

Python string operations used by the program, re-implemented structurally on
`List Char` so that every definition reduces in the kernel.
-/

/-- Boolean test that `pat` is an initial segment of `l`
(Python `str.startswith`, on character lists). -/
def leadsWith : List Char → List Char → Bool
  | [], _ => true
  | _ :: _, [] => false
  | a :: as, b :: bs => a == b && leadsWith as bs

/-- Boolean substring containment (Python `needle in haystack`). -/
def hasSub (needle : List Char) : List Char → Bool
  | [] => needle.isEmpty
  | b :: bs => leadsWith needle (b :: bs) || hasSub needle bs

/-- ASCII lowercasing of one character (Python `str.lower`; the sources this
program normalizes are ASCII marker comments). -/
def pyLower (c : Char) : Char :=
  if c.toNat ≥ 65 ∧ c.toNat ≤ 90 then Char.ofNat (c.toNat + 32) else c

/-- Split a character list at every occurrence of `sep`
(Python `str.split(sep)` for a one-character separator). -/
def splitChar (sep : Char) : List Char → List (List Char)
  | [] => [[]]
  | c :: rest =>
    let r := splitChar sep rest
    if c == sep then [] :: r
    else
      match r with
      | [] => [[c]]
      | g :: gs => (c :: g) :: gs

/-- Join character-list groups with a separator character. -/
def joinWith (sep : Char) : List (List Char) → List Char
  | [] => []
  | [g] => g
  | g :: gs => g ++ sep :: joinWith sep gs

/-- Boolean test that `t` is a final segment of `s` (Python `str.endswith`). -/
def strEndsWith (s t : String) : Bool :=
  leadsWith t.data.reverse s.data.reverse

/-- Fueled non-overlapping left-to-right replacement on character lists.
The fuel only bounds recursion depth; `strReplace` passes one unit per
remaining character plus one, which is sufficient because every step consumes
at least one character of the haystack. -/
def replChF (pat rep : List Char) : Nat → List Char → List Char
  | 0, s => s
  | _ + 1, [] => []
  | fuel + 1, c :: rest =>
    if leadsWith pat (c :: rest) then rep ++ replChF pat rep fuel ((c :: rest).drop pat.length)
    else c :: replChF pat rep fuel rest

/-- Python `str.replace` for a non-empty pattern (the program only replaces
the literal directory token `"../static"`). -/
def strReplace (s pat rep : String) : String :=
  if pat.data.isEmpty then s
  else ⟨replChF pat.data rep.data (s.data.length + 1) s.data⟩

/-- Model of `os.path.split`: split at the last slash
(the program is exercised on forward-slash paths). -/
def pathSplit (path : String) : String × String :=
  let parts := splitChar '/' path.data
  if parts.length ≤ 1 then ("", path)
  else (⟨joinWith '/' parts.dropLast⟩, ⟨parts.getLastD []⟩)

/-- Model of `os.path.join` for the shapes of directory names the program
builds (no trailing slashes, no absolute second component). -/
def pathJoin (d f : String) : String :=
  if d = "" then f else d ++ "/" ++ f

/-- Model of `os.path.splitext(...)[0]`: the name up to the last dot. -/
def stem (s : String) : String :=
  let parts := splitChar '.' s.data
  if parts.length ≤ 1 then s else ⟨joinWith '.' parts.dropLast⟩

/-- A single-quote character, used when rendering `<img>` tags. -/
def sglQuote : String := String.singleton (Char.ofNat 39)

/-! ## Data model

A notebook is an ordered list of cells.  A cell is a record of the JSON
fields the program touches; `Option` marks fields that may be absent from
the underlying dictionary (`none` = no such key, so a direct subscript or
`del` raises `KeyError`).  `execution_count` may also be present but null,
hence the nested `Option`.
-/

/-- One rich output of a code cell.  The embedding keeps exactly what the
nbconvert extraction pass consumes: `extract = some (extension, payload)`
when the output carries an image (or other extractable) MIME payload, with
`extension` including the leading dot (e.g. `".png"`); `extract = none` for
plain text or stream outputs, which still occupy an output index. -/
structure Output where
  extract : Option (String × String)
deriving DecidableEq

/-- A notebook cell. -/
structure Cell where
  cell_type : String
  source : String
  outputs : Option (List Output)
  execution_count : Option (Option Int)
deriving DecidableEq

/-- Python `KeyError`, tagged with the missing key. -/
inductive PyErr where
  | keyError (key : String)
deriving DecidableEq

/-- A value stored in the per-file `errors` dict of `main`: either the plain
message recorded for a non-sequential notebook, or an exception captured
from the executor. -/
inductive ErrVal where
  | msg (s : String)
  | exc (e : String)
deriving DecidableEq

/-- Outcome of `ExecutePreprocessor().preprocess(nb)` on one notebook: the
executed notebook (outputs and counts populated), or the raised error.  The
executor is an external engine, so `main` receives this as an oracle. -/
inductive ExecOutcome where
  | ok (nb : List Cell)
  | fail (e : String)
deriving DecidableEq

/-- A file-system write performed by `main`, reified as data. -/
inductive WriteOp where
  | student (path : String) (nb : List Cell)
  | staticFile (path : String) (data : String)
  | original (path : String) (nb : List Cell)
deriving DecidableEq

/-- Observable result of a completed run: the writes performed, the final
`errors` dict (as an ordered association list), and the process exit
status. -/
structure RunResult where
  writes : List WriteOp
  errors : List (String × ErrVal)
  status : Nat
deriving DecidableEq

/-- The namespace produced by `parse_args` (the misspelling
`require_sequntial` is the source's). -/
structure Args where
  files : List String
  check_only : Bool
  require_sequntial : Bool
deriving DecidableEq

/-! ## The program

Each definition below embeds the like-named Python function of
`ci/process_notebooks.py`.
-/

/-- The marker prefix tested after normalization
(`cell_text.startswith("#@titlesolution")`). -/
def markerChars : List Char := "#@titlesolution".data

/-- Python `cell["source"].replace(" ", "").lower()`: remove every space
character (only U+0020; tabs and newlines are untouched) and lowercase. -/
def normalizeSrc (s : String) : List Char :=
  (s.data.filter (fun ch => ch != ' ')).map pyLower

/-- Marker test on a source string, as performed at the top of the
`remove_solutions` loop. -/
def isSolutionSrc (s : String) : Bool :=
  leadsWith markerChars (normalizeSrc s)

/-- Marker test on a cell. -/
def isSolutionCell (c : Cell) : Bool :=
  isSolutionSrc c.source

/-- The list-comprehension of `sequentially_executed`: execution counts of
cells with truthy (non-empty) `source` and a non-null `execution_count`
key, in document order. -/
def execCounts (cells : List Cell) : List Int :=
  cells.filterMap (fun c =>
    match c.execution_count with
    | some (some n) => if c.source == "" then none else some n
    | _ => none)

/-- `sequentially_executed(nb)`: the collected counts equal
`list(range(1, 1 + len(exec_counts)))`. -/
def sequentially_executed (cells : List Cell) : Bool :=
  execCounts cells == (List.range' 1 (execCounts cells).length).map Int.ofNat

/-- The extraction file-name template
`f"../static/{nb_name}" + "_Solution_{cell_index}_{index}{extension}"`. -/
def solutionFname (name : String) (i j : Nat) (ext : String) : String :=
  "../static/" ++ name ++ "_Solution_" ++ toString i ++ "_" ++ toString j ++ ext

/-- Model of the nbconvert `RSTExporter` + `ExtractOutputPreprocessor` pass
in `remove_solutions`: the exporter deep-copies the notebook and returns
`resources["outputs"]`, an insertion-ordered dict mapping each templated
file name to the extracted payload.  Cells are indexed in document order;
every output of a cell occupies an index, extractable or not. -/
def extractOutputs (name : String) (cells : List Cell) : List (String × String) :=
  (cells.enum.map (fun ic =>
    (ic.2.outputs.getD []).enum.filterMap (fun jo =>
      jo.2.extract.map (fun e => (solutionFname name ic.1 jo.1 e.1, e.2))))).flatten

/-- One `<img>` tag of the generated markdown
(`f"<img src='{f}' align='left'>"`). -/
def imgTag (f : String) : String :=
  "<img src=" ++ sglQuote ++ f ++ sglQuote ++ " align=" ++ sglQuote ++ "left" ++ sglQuote ++ ">"

/-- The replacement markdown source for a solution cell with outputs:
`"**Example output:**\n\n" + "\n\n".join(img tags)`. -/
def mkSolutionSource (paths : List String) : String :=
  "**Example output:**\n\n" ++ String.intercalate "\n\n" (paths.map imgTag)

/-- Python `d[k] = v` on a dict kept as an insertion-ordered association
list: overwrite in place if the key exists, else append. -/
def dictInsert (d : List (String × α)) (k : String) (v : α) : List (String × α) :=
  if d.any (fun kv => kv.1 == k) then
    d.map (fun kv => if kv.1 == k then (k, v) else kv)
  else d ++ [(k, v)]

/-- Python `d.update(new)`. -/
def dictUpdate (d new : List (String × α)) : List (String × α) :=
  new.foldl (fun acc kv => dictInsert acc kv.1 kv.2) d

/-- The needle `f"Solution_{i}"` used to filter resource keys. -/
def solutionNeedle (i : Nat) : List Char :=
  ("Solution_" ++ toString i).data

/-- The `for i, cell in enumerate(nb_cells): ...` loop of
`remove_solutions`, embedded with Python's exact iterator semantics: `p` is
both the list iterator's position and the `enumerate` counter (they stay in
lock step), and `nb_cells.remove(cell)` deletes the first element equal to
`cell`, after which the iterator's next fetch is position `p + 1` of the
shortened list — so the element after a removed cell is never visited.

The fuel argument only bounds recursion depth.  Each step increases `p` by
one and never lengthens the list, so the measure `cells.length + 1 - p`
strictly decreases while remaining an upper bound on the steps left;
`remove_solutions` supplies `nb.length + 1` fuel, and when fuel reaches `0`
the loop condition `p < cells.length` is already false, so returning
`(cells, acc)` in the fuel-0 case agrees with the loop. -/
def stripGoF (omap : List (String × String)) :
    Nat → List Cell → Nat → List (String × String) →
      Except PyErr (List Cell × List (String × String))
  | 0, cells, _, acc => .ok (cells, acc)
  | fuel + 1, cells, p, acc =>
    if h : p < cells.length then
      let cell := cells.get ⟨p, h⟩
      if isSolutionCell cell then
        -- `if not cell["outputs"]` raises KeyError when the key is absent
        match cell.outputs with
        | none => .error (.keyError "outputs")
        | some outs =>
          if outs.isEmpty then
            stripGoF omap fuel (cells.erase cell) (p + 1) acc
          else
            -- the mutations end with `del cell["execution_count"]`, which
            -- raises KeyError when the key is absent; the exception
            -- propagates out of `remove_solutions` either way
            match cell.execution_count with
            | none => .error (.keyError "execution_count")
            | some _ =>
              let pairs := omap.filter (fun kv => hasSub (solutionNeedle p) kv.1.data)
              let newCell : Cell :=
                ⟨"markdown", mkSolutionSource (pairs.map (fun kv => kv.1)), none, none⟩
              stripGoF omap fuel (cells.set p newCell) (p + 1) (dictUpdate acc pairs)
      else
        stripGoF omap fuel cells (p + 1) acc
    else
      .ok (cells, acc)

/-- `remove_solutions(nb, nb_name)`.  The returned notebook is the same
(mutated-in-place) object as the argument in Python; here the returned list
is the final value of that object. -/
def remove_solutions (nb : List Cell) (nb_name : String) :
    Except PyErr (List Cell × List (String × String)) :=
  stripGoF (extractOutputs nb_name nb) (nb.length + 1) nb 0 []

/-- `parse_args(arglist)`: `--check-only` is a `store_true` flag (default
false), `--allow-non-sequential` is a `store_false` flag for
`require_sequntial` (default true); the positional `files` are the
non-flag tokens. -/
def parse_args (arglist : List String) : Args :=
  ⟨arglist.filter (fun a => !(leadsWith ['-', '-'] a.data)),
   arglist.contains "--check-only",
   !(arglist.contains "--allow-non-sequential")⟩

/-- The `.ipynb` filter at the top of `main`. -/
def nbPathsOf (args : Args) : List String :=
  args.files.filter (fun a => strEndsWith a ".ipynb")

/-- The per-file body of the first loop of `main`: the sequential gate
(when `require_sequntial`), then execution.  Returns the recorded error or
the executed notebook. -/
def fileResult (require_seq : Bool) (nb : List Cell) (outcome : ExecOutcome) :
    Except ErrVal (List Cell) :=
  if !(sequentially_executed nb) && require_seq then
    .error (.msg "Notebook is not sequentially executed.")
  else
    match outcome with
    | .fail e => .error (.exc e)
    | .ok nb2 => .ok nb2

/-- The result a notebook gets when the sequential gate is disabled or
passed: whatever the executor produced. -/
def execOutcomeResult : ExecOutcome → Except ErrVal (List Cell)
  | .ok nb => .ok nb
  | .fail e => .error (.exc e)

/-- One step of the first loop of `main`, threading the `errors` and
`notebooks` dicts. -/
def processOne (require_seq : Bool) (load : String → List Cell)
    (run : String → ExecOutcome)
    (acc : List (String × ErrVal) × List (String × List Cell)) (path : String) :
    List (String × ErrVal) × List (String × List Cell) :=
  match fileResult require_seq (load path) (run path) with
  | .error e => (dictInsert acc.1 path e, acc.2)
  | .ok nb2 => (acc.1, dictInsert acc.2 path nb2)

/-- The whole first loop of `main` over the filtered paths. -/
def processAll (args : Args) (load : String → List Cell)
    (run : String → ExecOutcome) :
    List (String × ErrVal) × List (String × List Cell) :=
  (nbPathsOf args).foldl (processOne args.require_sequntial load run) ([], [])

/-- The exit status set by `exit(errors)`: `sys.exit(bool(errors))`. -/
def exitStatus (errors : List (String × ErrVal)) : Nat :=
  if errors.isEmpty then 0 else 1

/-- The writing loop of `main` over the `notebooks` dict.  For each entry it
strips solutions and emits the student-notebook write, the static-image
writes (with the `"../static"` token rewritten to the real directory), and
the write of `nb` back to its original path.  Because `remove_solutions`
mutates `nb` in place and returns it, the content of that last write is the
stripped notebook.  A `KeyError` escaping `remove_solutions` aborts the
run (writes already performed for earlier notebooks are not modelled, as no
property below depends on them). -/
def writeLoop : List (String × List Cell) → Except PyErr (List WriteOp)
  | [] => .ok []
  | (path, nb) :: rest =>
    let pr := pathSplit path
    let nb_name := stem pr.2
    match remove_solutions nb nb_name with
    | .error e => .error e
    | .ok r =>
      match writeLoop rest with
      | .error e => .error e
      | .ok ws =>
        .ok (WriteOp.student (pathJoin (pathJoin pr.1 "student") pr.2) r.1
          :: (r.2.map (fun kv =>
                WriteOp.staticFile (strReplace kv.1 "../static" (pathJoin pr.1 "static")) kv.2)
          ++ WriteOp.original path r.1 :: ws))

/-- `main(arglist)` after argument parsing (named `mainRun` because Lean reserves `main` for executables), with the file system (`load`)
and the notebook executor (`run`) as oracles.  Mirrors the control flow of
the source: filter paths (exit 0 if none remain), process every file while
deferring failures, exit before writing anything if any error was recorded
or `--check-only` was passed, otherwise write all artifacts and exit. -/
def mainRun (args : Args) (load : String → List Cell) (run : String → ExecOutcome) :
    Except PyErr RunResult :=
  if (nbPathsOf args).isEmpty then .ok ⟨[], [], 0⟩
  else
    if !(processAll args load run).1.isEmpty || args.check_only then
      .ok ⟨[], (processAll args load run).1, exitStatus (processAll args load run).1⟩
    else
      match writeLoop (processAll args load run).2 with
      | .error e => .error e
      | .ok ws => .ok ⟨ws, (processAll args load run).1, exitStatus (processAll args load run).1⟩

/-- The failure an input path contributes to the final report, if any. -/
def failureOf (require_seq : Bool) (load : String → List Cell)
    (run : String → ExecOutcome) (path : String) : Option (String × ErrVal) :=
  match fileResult require_seq (load path) (run path) with
  | .error e => some (path, e)
  | .ok _ => none

/-- Projection: the original-path writes of a run. -/
def origWrites (ws : List WriteOp) : List (String × List Cell) :=
  ws.filterMap (fun w =>
    match w with
    | .original p nb => some (p, nb)
    | _ => none)

/-- Projection: the source of cell `i` of a `remove_solutions` result. -/
def cellSourceAt (r : Except PyErr (List Cell × List (String × String))) (i : Nat) :
    Option String :=
  match r with
  | .ok cs => (cs.1.get? i).map (fun c => c.source)
  | .error _ => none

/-! ## Concrete instances

Small notebooks used to exercise the definitions.
-/

/-- A marked solution cell whose execution produced no outputs. -/
def solEmptyCell : Cell := ⟨"code", "# @title Solution", some [], some (some 2)⟩

/-- A markdown cell whose source matches the marker but which has no
`outputs` (and no `execution_count`) key. -/
def mNoOutCell : Cell := ⟨"markdown", "# @title Solution", none, none⟩

/-- An ordinary executed code cell. -/
def plainCell : Cell := ⟨"code", "x", some [], some (some 1)⟩

/-- A marked solution cell with one image output. -/
def solImgCell : Cell := ⟨"code", "# @title Solution", some [⟨some (".png", "IMGA")⟩], some (some 3)⟩

/-- A second marked solution cell with one image output. -/
def solImgCellB : Cell :=
  ⟨"code", "# @title Solution\nplot()", some [⟨some (".png", "IMGB")⟩], some (some 4)⟩

/-- An eleven-cell notebook whose marked cells sit at indices 1 and 10. -/
def c4nb : List Cell :=
  [plainCell, solImgCell, plainCell, plainCell, plainCell, plainCell,
   plainCell, plainCell, plainCell, plainCell, solImgCellB]

/-- The notebook as loaded from disk for the end-to-end run (sequentially
executed, so it passes the gate). -/
def c1loaded : List Cell := [⟨"code", "x", some [], some (some 1)⟩]

/-- The same notebook as returned by the executor: a plain cell followed by
a marked solution cell with one image output. -/
def c1exec : List Cell := [plainCell, solImgCell]

/-- Arguments for the end-to-end run: one input file, no flags. -/
def c1args : Args := ⟨["dir/t.ipynb"], false, true⟩

/-- File-system oracle for the end-to-end run. -/
def c1load : String → List Cell := fun _ => c1loaded

/-- Executor oracle for the end-to-end run. -/
def c1run : String → ExecOutcome := fun _ => ExecOutcome.ok c1exec

/-- The stripped form of `c1exec`. -/
def c1stripped : List Cell :=
  [plainCell, ⟨"markdown", mkSolutionSource ["../static/t_Solution_1_0.png"], none, none⟩]

/-- The full result of the end-to-end run. -/
def c1result : RunResult :=
  ⟨[WriteOp.student "dir/student/t.ipynb" c1stripped,
    WriteOp.staticFile "dir/static/t_Solution_1_0.png" "IMGA",
    WriteOp.original "dir/t.ipynb" c1stripped], [], 0⟩

/-- The marker written with a tab instead of the space after `#`. -/
def tabMarkedCell : Cell := ⟨"code", "#\t@title Solution", some [], some (some 1)⟩

/-- The marker in capitals with spaces. -/
def caseMarkedCell : Cell := ⟨"code", "#@TITLE SOLUTION", some [], some (some 1)⟩

/-- Characters that are neither a space nor a tab (used to state that two
sources differ only in whitespace). -/
def nonWhitespace (ch : Char) : Bool := !(ch == ' ' || ch == '\t')

/-- A notebook whose single cell has a non-sequential execution count. -/
def nonseqNb : List Cell := [⟨"code", "x", some [], some (some 2)⟩]

/-- Arguments with `--check-only` set. -/
def c6args : Args := ⟨["a.ipynb"], true, true⟩

/-- Arguments for a run whose only file fails the sequential gate. -/
def c7args : Args := ⟨["b.ipynb"], false, true⟩

/-- File-system oracle returning the non-sequential notebook. -/
def c7load : String → List Cell := fun _ => nonseqNb

/-- Executor oracle that would succeed with an empty notebook. -/
def c7run : String → ExecOutcome := fun _ => ExecOutcome.ok []

/-- The result of the gated run: no writes, one recorded message, exit 1. -/
def c7result : RunResult :=
  ⟨[], [("b.ipynb", ErrVal.msg "Notebook is not sequentially executed.")], 1⟩

/-- Well-formedness of one cell for `remove_solutions`: when the marker
matches, the `outputs` key exists, and when those outputs are non-empty the
`execution_count` key exists too. -/
def cellOk (c : Cell) : Prop :=
  isSolutionCell c = true →
    ∃ outs, c.outputs = some outs ∧ (outs ≠ [] → c.execution_count ≠ none)

/-! ## Claim theorems -/

/-- Claim C1 (refuted — code bug): in an error-free run without
`--check-only`, the notebook written back to the original input path is NOT
the executed solution-intact notebook: because `remove_solutions` mutates
`nb` in place and returns it, the original path receives the stripped
notebook, whose marked cell has become a markdown cell without outputs,
while only the executed notebook `c1exec` retains the code cell with its
outputs. -/
theorem c1_original_write_stripped :
    mainRun c1args c1load c1run = Except.ok c1result ∧
    origWrites c1result.writes = [("dir/t.ipynb", c1stripped)] ∧
    c1stripped ≠ c1exec ∧
    (c1exec.get? 1).map Cell.cell_type = some "code" ∧
    (c1exec.get? 1).map Cell.outputs = some (some [⟨some (".png", "IMGA")⟩]) ∧
    (c1stripped.get? 1).map Cell.cell_type = some "markdown" ∧
    (c1stripped.get? 1).map Cell.outputs = some none := by
  exact ⟨rfl, rfl, by decide, rfl, rfl, rfl, rfl⟩

/-- Claim C3 (refuted — code bug): of two adjacent marked solution cells
with empty outputs, only the first is deleted; removing it shifts the list
under the live iterator, so the second is never visited and survives. -/
theorem c3_adjacent_solution_cell_skipped :
    remove_solutions [solEmptyCell, solEmptyCell] "nb" = Except.ok ([solEmptyCell], []) ∧
    isSolutionCell solEmptyCell = true ∧
    solEmptyCell.outputs = some [] := by
  exact ⟨rfl, rfl, rfl⟩

/-- Claim C4 (refuted — code bug): the resource filter is a substring test
(`f"Solution_{i}" in k`), so in `c4nb` the markdown generated for the
marked cell at index 1 embeds the image extracted for the cell at index 10
as well — an `<img>` tag for an image belonging to another cell. -/
theorem c4_img_tags_cross_cell :
    extractOutputs "nb" c4nb =
      [("../static/nb_Solution_1_0.png", "IMGA"), ("../static/nb_Solution_10_0.png", "IMGB")] ∧
    cellSourceAt (remove_solutions c4nb "nb") 1 =
      some (mkSolutionSource ["../static/nb_Solution_1_0.png", "../static/nb_Solution_10_0.png"]) ∧
    cellSourceAt (remove_solutions c4nb "nb") 10 =
      some (mkSolutionSource ["../static/nb_Solution_10_0.png"]) := by
  exact ⟨rfl, rfl, rfl⟩

/-- Claim C5 counterexample: two sources that differ only in whitespace (a
space versus a tab after `#`), of which only the space version is detected
as a solution marker — normalization removes spaces, not whitespace in
general. -/
theorem c5_counterexample :
    isSolutionCell solEmptyCell = true ∧
    isSolutionCell tabMarkedCell = false ∧
    solEmptyCell.source.data.filter nonWhitespace
      = tabMarkedCell.source.data.filter nonWhitespace := by
  exact ⟨rfl, rfl, rfl⟩

/-- Claim C10 counterexample: a notebook on which `remove_solutions`
returns normally although a marker-matching cell lacks the `outputs` key —
the cell follows a removed cell, so the iteration skips it; the function is
therefore not total ONLY on notebooks whose marker cells all carry the
fields. -/
theorem c10_counterexample :
    remove_solutions [solEmptyCell, mNoOutCell] "nb" = Except.ok ([mNoOutCell], []) ∧
    isSolutionCell mNoOutCell = true ∧
    mNoOutCell.outputs = none := by
  exact ⟨rfl, rfl, rfl⟩

/-- A list of integers equals `[s, s+1, ...]` of its own length exactly when
its `i`-th entry is `s + i` throughout. -/
theorem seqFrom_iff (l : List Int) : ∀ s : Nat,
    (l = (List.range' s l.length).map Int.ofNat) ↔
      ∀ (i : Nat) (h : i < l.length), l.get ⟨i, h⟩ = (s : Int) + (i : Int) := by
  induction l with
  | nil => intro s; simp
  | cons a t ih =>
    intro s
    constructor
    · intro hEq i hi
      rw [show (a :: t).length = t.length + 1 from rfl, List.range'_succ, List.map_cons] at hEq
      injection hEq with h1 h2
      match i with
      | 0 => simpa using h1
      | Nat.succ j =>
        have hj : j < t.length := by simpa using hi
        have hg := (ih (s + 1)).mp h2 j hj
        show t.get ⟨j, hj⟩ = (s : Int) + ((j + 1 : Nat) : Int)
        rw [hg]
        push_cast
        ring
    · intro h
      have h0 : a = (s : Int) := by simpa using h 0 (by simp)
      have ht : t = (List.range' (s + 1) t.length).map Int.ofNat := by
        apply (ih (s + 1)).mpr
        intro i hi
        have hsucc : i + 1 < (a :: t).length := by simpa using Nat.succ_lt_succ hi
        have := h (i + 1) hsucc
        rw [show (a :: t).get ⟨i + 1, hsucc⟩ = t.get ⟨i, hi⟩ from rfl] at this
        rw [this]
        push_cast
        ring
      show a :: t = List.map Int.ofNat (List.range' s (t.length + 1))
      rw [List.range'_succ, List.map_cons, h0, ← ht]
      rfl

/-- Claim C2 (confirmed): `sequentially_executed` returns true exactly when
the execution counts of cells with non-empty source and a non-null
execution count, taken in document order, are `1, 2, ..., N` for `N` the
length of that very sequence — so the empty sequence passes, and any gap,
repeat, or out-of-order value fails. -/
theorem c2_sequentially_executed_iff (cells : List Cell) :
    sequentially_executed cells = true ↔
      ∀ (i : Nat) (h : i < (execCounts cells).length),
        (execCounts cells).get ⟨i, h⟩ = (i : Int) + 1 := by
  unfold sequentially_executed
  rw [beq_iff_eq, seqFrom_iff (execCounts cells) 1]
  constructor <;> intro h i hi <;> have := h i hi <;> omega

/-- Claim C6 (confirmed): whenever any per-file error was recorded or
`--check-only` was passed, a completed run performs no write at all — no
student notebook, no static image, no overwrite of an original path. -/
theorem c6_no_writes_on_error_or_check_only (args : Args) (load : String → List Cell)
    (run : String → ExecOutcome) (res : RunResult)
    (hok : mainRun args load run = Except.ok res)
    (hcond : res.errors ≠ [] ∨ args.check_only = true) :
    res.writes = [] := by
  unfold mainRun at hok
  split at hok
  · injection hok with h
    rw [← h]
  · split at hok
    · injection hok with h
      rw [← h]
    · rename_i hgate
      simp only [Bool.or_eq_true, Bool.not_eq_true', not_or, Bool.not_eq_false,
        Bool.not_eq_true] at hgate
      split at hok
      · exact Except.noConfusion hok
      · injection hok with h
        rw [← h] at hcond
        rcases hcond with hc | hc
        · exact absurd (List.isEmpty_iff.mp hgate.1) hc
        · rw [hgate.2] at hc
          exact Bool.noConfusion hc

/-- Inserting a key that is not yet in the dict appends it. -/
theorem dictInsert_of_fresh {α : Type} (d : List (String × α)) (k : String) (v : α)
    (h : ∀ kv ∈ d, kv.1 ≠ k) : dictInsert d k v = d ++ [(k, v)] := by
  unfold dictInsert
  rw [if_neg]
  intro hany
  rw [List.any_eq_true] at hany
  obtain ⟨kv, hmem, hbeq⟩ := hany
  exact h kv hmem (by simpa using hbeq)

/-- The first loop of `main`, run over paths with pairwise-distinct names
none of which collide with the accumulators, records exactly one entry per
failing path, in order, after whatever was already accumulated. -/
theorem processAll_go (rs : Bool) (load : String → List Cell) (run : String → ExecOutcome) :
    ∀ (paths : List String) (eacc : List (String × ErrVal)) (nacc : List (String × List Cell)),
      paths.Nodup →
      (∀ p ∈ paths, (∀ kv ∈ eacc, kv.1 ≠ p) ∧ (∀ kv ∈ nacc, kv.1 ≠ p)) →
      (paths.foldl (processOne rs load run) (eacc, nacc)).1
        = eacc ++ paths.filterMap (failureOf rs load run) := by
  intro paths
  induction paths with
  | nil => intro eacc nacc _ _; simp
  | cons path ps ih =>
    intro eacc nacc hnd hfresh
    have hfr := hfresh path (by simp)
    rw [List.nodup_cons] at hnd
    rw [List.foldl_cons]
    cases hres : fileResult rs (load path) (run path) with
    | error e =>
      rw [show processOne rs load run (eacc, nacc) path = (dictInsert eacc path e, nacc) from by
        unfold processOne; rw [hres]]
      rw [ih (dictInsert eacc path e) nacc hnd.2 ?_]
      · rw [dictInsert_of_fresh eacc path e hfr.1]
        rw [show (path :: ps).filterMap (failureOf rs load run)
            = (path, e) :: ps.filterMap (failureOf rs load run) from by
          rw [List.filterMap_cons]
          unfold failureOf
          rw [hres]]
        simp
      · intro p hp
        refine ⟨?_, (hfresh p (List.mem_cons_of_mem path hp)).2⟩
        intro kv hkv
        rw [dictInsert_of_fresh eacc path e hfr.1] at hkv
        rcases List.mem_append.mp hkv with hold | hnew
        · exact (hfresh p (List.mem_cons_of_mem path hp)).1 kv hold
        · rw [List.mem_singleton] at hnew
          rw [hnew]
          intro hcontra
          apply hnd.1
          have heq : path = p := hcontra
          rw [heq]
          exact hp
    | ok nb2 =>
      rw [show processOne rs load run (eacc, nacc) path = (eacc, dictInsert nacc path nb2) from by
        unfold processOne; rw [hres]]
      rw [ih eacc (dictInsert nacc path nb2) hnd.2 ?_]
      · rw [show (path :: ps).filterMap (failureOf rs load run)
            = ps.filterMap (failureOf rs load run) from by
          rw [List.filterMap_cons]
          unfold failureOf
          rw [hres]]
      · intro p hp
        refine ⟨(hfresh p (List.mem_cons_of_mem path hp)).1, ?_⟩
        intro kv hkv
        rw [dictInsert_of_fresh nacc path nb2 hfr.2] at hkv
        rcases List.mem_append.mp hkv with hold | hnew
        · exact (hfresh p (List.mem_cons_of_mem path hp)).2 kv hold
        · rw [List.mem_singleton] at hnew
          rw [hnew]
          intro hcontra
          apply hnd.1
          have heq : path = p := hcontra
          rw [heq]
          exact hp

/-- Claim C7 (confirmed): over distinct input paths, a completed run's
error report contains exactly one entry, keyed by path, for every file that
failed (gate message or execution error) — later files are still processed
after a failure, and reporting is deferred to the end — and the exit status
is 1 when at least one file failed and 0 otherwise. -/
theorem c7_deferred_errors_and_status (args : Args) (load : String → List Cell)
    (run : String → ExecOutcome) (res : RunResult)
    (hnd : (nbPathsOf args).Nodup)
    (hok : mainRun args load run = Except.ok res) :
    res.errors = (nbPathsOf args).filterMap (failureOf args.require_sequntial load run) ∧
    res.status = (if res.errors.isEmpty then 0 else 1) := by
  have herr : (processAll args load run).1
      = (nbPathsOf args).filterMap (failureOf args.require_sequntial load run) := by
    unfold processAll
    exact processAll_go _ _ _ _ [] [] hnd (by simp)
  unfold mainRun at hok
  split at hok
  · rename_i hemp
    injection hok with h
    rw [← h]
    rw [List.isEmpty_iff.mp hemp]
    exact ⟨rfl, rfl⟩
  · split at hok
    · injection hok with h
      rw [← h]
      exact ⟨herr, rfl⟩
    · split at hok
      · exact Except.noConfusion hok
      · injection hok with h
        rw [← h]
        exact ⟨herr, rfl⟩

/-- Claim C8 (confirmed): the gate defaults to enforced
(`require_sequntial` is true without flags and false with
`--allow-non-sequential`); under the gate a non-sequential notebook is
recorded as a message-only error without consulting the executor, and with
the gate disabled its fate is exactly the executor's outcome. -/
theorem c8_sequential_gate (nb : List Cell) (outcome : ExecOutcome)
    (hseq : sequentially_executed nb = false) :
    (parse_args []).require_sequntial = true ∧
    (parse_args ["--allow-non-sequential"]).require_sequntial = false ∧
    fileResult true nb outcome
      = Except.error (ErrVal.msg "Notebook is not sequentially executed.") ∧
    fileResult false nb outcome = execOutcomeResult outcome := by
  refine ⟨rfl, rfl, ?_, ?_⟩
  · unfold fileResult
    rw [hseq]
    rfl
  · unfold fileResult
    rw [hseq]
    cases outcome <;> rfl

/-- Witness for C8 at the concrete non-sequential notebook `nonseqNb`. -/
theorem c8_witness :
    (parse_args []).require_sequntial = true ∧
    (parse_args ["--allow-non-sequential"]).require_sequntial = false ∧
    fileResult true nonseqNb (ExecOutcome.ok [])
      = Except.error (ErrVal.msg "Notebook is not sequentially executed.") ∧
    fileResult false nonseqNb (ExecOutcome.ok [])
      = execOutcomeResult (ExecOutcome.ok []) :=
  c8_sequential_gate nonseqNb (ExecOutcome.ok []) (by decide)

/-- Erasing one occurrence of a marker-matching cell does not change the
marker-free sublist. -/
theorem filter_erase_of_sol (c : Cell) (hc : isSolutionCell c = true) :
    ∀ l : List Cell, (l.erase c).filter (fun x => !(isSolutionCell x))
      = l.filter (fun x => !(isSolutionCell x)) := by
  intro l
  induction l with
  | nil => rfl
  | cons a t ih =>
    rw [List.erase_cons]
    by_cases hbeq : (a == c) = true
    · rw [if_pos hbeq]
      have ha : a = c := by simpa using hbeq
      simp [List.filter_cons, ha, hc]
    · rw [if_neg hbeq]
      simp [List.filter_cons, ih]

/-- Overwriting a marker-matching cell can only extend the marker-free
sublist. -/
theorem filter_sublist_set_of_sol :
    ∀ (l : List Cell) (p : Nat) (c nc : Cell), l.get? p = some c →
      isSolutionCell c = true →
      List.Sublist (l.filter (fun x => !(isSolutionCell x)))
        ((l.set p nc).filter (fun x => !(isSolutionCell x))) := by
  intro l
  induction l with
  | nil => intro p c nc h _; exact absurd h (by simp)
  | cons a t ih =>
    intro p c nc hget hsol
    cases p with
    | zero =>
      have ha : a = c := by simpa using hget
      show List.Sublist ((a :: t).filter _) ((nc :: t).filter _)
      rw [List.filter_cons, List.filter_cons,
        show (!(isSolutionCell a)) = false from by rw [ha, hsol]; rfl, if_neg Bool.false_ne_true]
      by_cases hnc : (!(isSolutionCell nc)) = true
      · rw [if_pos hnc]
        exact List.Sublist.cons nc (List.Sublist.refl _)
      · rw [if_neg hnc]
    | succ n =>
      have hget2 : t.get? n = some c := by simpa using hget
      show List.Sublist ((a :: t).filter _) ((a :: t.set n nc).filter _)
      rw [List.filter_cons, List.filter_cons]
      by_cases hsola : (!(isSolutionCell a)) = true
      · rw [if_pos hsola, if_pos hsola]
        exact List.Sublist.cons₂ a (ih n c nc hget2 hsol)
      · rw [if_neg hsola, if_neg hsola]
        exact ih n c nc hget2 hsol

/-- Whatever the stripping loop does, the marker-free cells of its working
list survive, in order, into a normally-returned result. -/
theorem stripGoF_filter_sublist (omap : List (String × String)) :
    ∀ (fuel : Nat) (cells : List Cell) (p : Nat) (acc : List (String × String))
      (out : List Cell × List (String × String)),
      stripGoF omap fuel cells p acc = Except.ok out →
      List.Sublist (cells.filter (fun x => !(isSolutionCell x))) out.1 := by
  intro fuel
  induction fuel with
  | zero =>
    intro cells p acc out h
    injection h with h
    rw [← h]
    exact List.filter_sublist _
  | succ fuel ih =>
    intro cells p acc out h
    simp only [stripGoF] at h
    split at h
    · split at h
      · rename_i hlt hsol
        split at h
        · exact Except.noConfusion h
        · rename_i outs houts
          split at h
          · have hs := ih _ _ _ _ h
            rwa [filter_erase_of_sol _ hsol _] at hs
          · split at h
            · exact Except.noConfusion h
            · have hs := ih _ _ _ _ h
              refine List.Sublist.trans ?_ hs
              exact filter_sublist_set_of_sol cells p _ _ (List.get?_eq_get hlt) hsol
      · exact ih _ _ _ _ h
    · injection h with h
      rw [← h]
      exact List.filter_sublist _

/-- Claim C9 (confirmed): every cell whose normalized source does not match
the marker comes through `remove_solutions` untouched — the marker-free
cells of the input form, with identical `source`, `cell_type`, `outputs`
and `execution_count` and in their original order, a sublist of the
output. -/
theorem c9_nonsolution_cells_preserved (nb : List Cell) (name : String)
    (out : List Cell × List (String × String))
    (h : remove_solutions nb name = Except.ok out) :
    List.Sublist (nb.filter (fun c => !(isSolutionCell c))) out.1 :=
  stripGoF_filter_sublist _ _ _ _ _ _ h

/-- Witness for C9 on a notebook with one plain and one marked cell. -/
theorem c9_witness :
    List.Sublist ([plainCell, solEmptyCell].filter (fun c => !(isSolutionCell c)))
      [plainCell] :=
  c9_nonsolution_cells_preserved [plainCell, solEmptyCell] "w" ([plainCell], []) rfl

/-- The generated markdown source never matches the marker: its first
non-space character is an asterisk. -/
theorem isSolutionSrc_mkSolutionSource (paths : List String) :
    isSolutionSrc (mkSolutionSource paths) = false := by
  unfold isSolutionSrc mkSolutionSource normalizeSrc
  rw [show ("**Example output:**\n\n"
        ++ String.intercalate "\n\n" (paths.map imgTag)).data
      = "**Example output:**\n\n".data
        ++ (String.intercalate "\n\n" (paths.map imgTag)).data from rfl]
  rw [List.filter_append, List.map_append]
  rw [show ("**Example output:**\n\n".data.filter (fun ch => ch != ' ')).map pyLower
      = '*' :: "*exampleoutput:**\n\n".data from by decide]
  rw [show markerChars = '#' :: "@titlesolution".data from by decide]
  rw [List.cons_append]
  simp only [leadsWith]
  rw [show ('#' == '*') = false from rfl, Bool.false_and]

/-- On a list of well-formed cells the stripping loop never raises. -/
theorem stripGoF_total (omap : List (String × String)) :
    ∀ (fuel : Nat) (cells : List Cell) (p : Nat) (acc : List (String × String)),
      (∀ c ∈ cells, cellOk c) →
      ∃ out, stripGoF omap fuel cells p acc = Except.ok out := by
  intro fuel
  induction fuel with
  | zero => intro cells p acc _; exact ⟨(cells, acc), rfl⟩
  | succ fuel ih =>
    intro cells p acc hok
    by_cases hlt : p < cells.length
    · have hcell : cells.get ⟨p, hlt⟩ ∈ cells := List.get_mem _ _ _
      by_cases hsol : isSolutionCell (cells.get ⟨p, hlt⟩) = true
      · obtain ⟨outs, houts, hexec⟩ := hok _ hcell hsol
        by_cases hemp : outs.isEmpty = true
        · obtain ⟨out, hout⟩ := ih (cells.erase (cells.get ⟨p, hlt⟩)) (p + 1) acc
            (fun c hc => hok c (List.mem_of_mem_erase hc))
          refine ⟨out, ?_⟩
          simp only [stripGoF]
          rw [dif_pos hlt]
          rw [if_pos hsol]
          simp only [houts]
          rw [if_pos hemp]
          exact hout
        · have hwf : ∀ c ∈ (cells.set p ⟨"markdown",
              mkSolutionSource (((omap.filter
                (fun kv => hasSub (solutionNeedle p) kv.1.data)).map (fun kv => kv.1))),
              none, none⟩), cellOk c := by
            intro c hc
            rcases List.mem_or_eq_of_mem_set hc with hmem | hnew
            · exact hok c hmem
            · rw [hnew]
              intro hsolnew
              rw [show isSolutionCell ⟨"markdown",
                  mkSolutionSource (((omap.filter
                    (fun kv => hasSub (solutionNeedle p) kv.1.data)).map (fun kv => kv.1))),
                  none, none⟩
                = isSolutionSrc (mkSolutionSource (((omap.filter
                    (fun kv => hasSub (solutionNeedle p) kv.1.data)).map
                      (fun kv => kv.1)))) from rfl,
                isSolutionSrc_mkSolutionSource] at hsolnew
              exact Bool.noConfusion hsolnew
          have hne : outs ≠ [] := fun hnil => hemp (by rw [hnil]; rfl)
          obtain ⟨v, hv⟩ := Option.ne_none_iff_exists'.mp (hexec hne)
          obtain ⟨out, hout⟩ := ih
            (cells.set p ⟨"markdown",
              mkSolutionSource (((omap.filter
                (fun kv => hasSub (solutionNeedle p) kv.1.data)).map (fun kv => kv.1))),
              none, none⟩)
            (p + 1)
            (dictUpdate acc (omap.filter (fun kv => hasSub (solutionNeedle p) kv.1.data)))
            hwf
          refine ⟨out, ?_⟩
          simp only [stripGoF]
          rw [dif_pos hlt]
          rw [if_pos hsol]
          simp only [houts]
          rw [if_neg hemp]
          rw [hv]
          exact hout
      · obtain ⟨out, hout⟩ := ih cells (p + 1) acc hok
        refine ⟨out, ?_⟩
        simp only [stripGoF]
        rw [dif_pos hlt]
        rw [if_neg hsol]
        exact hout
    · refine ⟨(cells, acc), ?_⟩
      simp only [stripGoF]
      rw [dif_neg hlt]

/-- Claim C10 (amended): `remove_solutions` raises `KeyError` on a notebook
whose marker-matching cell lacks the `outputs` key, and it is total on
notebooks in which every marker-matching cell carries an `outputs` key and
(when the outputs are non-empty) an `execution_count` key.  (The original
"total only on" direction fails: a malformed marker cell that the
iteration skips after a removal causes no error — see the
counterexample.) -/
theorem c10_keyerror_and_totality :
    remove_solutions [mNoOutCell] "nb" = Except.error (PyErr.keyError "outputs") ∧
    ∀ (nb : List Cell) (name : String), (∀ c ∈ nb, cellOk c) →
      ∃ out, remove_solutions nb name = Except.ok out := by
  constructor
  · rfl
  · intro nb name h
    exact stripGoF_total _ _ nb 0 [] h

/-- Witness for C10 on a well-formed one-cell notebook. -/
theorem c10_witness : ∃ out, remove_solutions [solEmptyCell] "w" = Except.ok out :=
  c10_keyerror_and_totality.2 [solEmptyCell] "w" (by
    intro c hc
    rw [List.mem_singleton] at hc
    rw [hc]
    intro _
    exact ⟨[], rfl, fun hne => absurd rfl hne⟩)

/-- Claim C5 (amended): marker detection depends only on the source after
removing space characters and ASCII-lowercasing, so markers differing only
in spaces or letter case are all detected alike; but the normalization does
not cover whitespace generally — a tab in the marker defeats it. -/
theorem c5_marker_detection_amended :
    (∀ c d : Cell, normalizeSrc c.source = normalizeSrc d.source →
      isSolutionCell c = isSolutionCell d) ∧
    isSolutionCell solEmptyCell = true ∧
    isSolutionCell caseMarkedCell = true ∧
    isSolutionCell tabMarkedCell = false := by
  refine ⟨?_, rfl, rfl, rfl⟩
  intro c d h
  unfold isSolutionCell isSolutionSrc
  rw [h]

/-- Witness for C5 on two sources equal up to spaces and case. -/
theorem c5_witness : isSolutionCell solEmptyCell = isSolutionCell caseMarkedCell :=
  c5_marker_detection_amended.1 solEmptyCell caseMarkedCell (by decide)

/-- Witness for C6: the `--check-only` run over one healthy notebook
completes with no writes. -/
theorem c6_witness : (RunResult.mk [] [] 0).writes = [] :=
  c6_no_writes_on_error_or_check_only c6args c1load c1run ⟨[], [], 0⟩ rfl (Or.inr rfl)

/-- Witness for C7: the run over one non-sequential notebook reports that
file and exits with status 1. -/
theorem c7_witness :
    c7result.errors
      = (nbPathsOf c7args).filterMap (failureOf c7args.require_sequntial c7load c7run) ∧
    c7result.status = (if c7result.errors.isEmpty then 0 else 1) :=
  c7_deferred_errors_and_status c7args c7load c7run c7result (by decide) rfl

/-- Witness for C2 on a one-cell executed notebook. -/
theorem c2_witness : sequentially_executed [plainCell] = true :=
  (c2_sequentially_executed_iff [plainCell]).mpr (by
    intro i h
    match i with
    | 0 => rfl
    | n + 1 =>
      exfalso
      have hlen : (execCounts [plainCell]).length = 1 := rfl
      rw [hlen] at h
      omega)
